import Mathlib

/-
Verification of the makeflow resource-monitor hook
(src/makeflow/src/makeflow_module_resource_monitor.c).

The hook is embedded shallowly: each callback becomes a Lean function from
its inputs (configuration, node id, queue capability probe, oracles for the
external filesystem and runtime helpers) to a record of its observable
effects (hook result, declared files, emitted state changes, attempted
renames). External helpers that live outside src/ are modelled from the
spec and carry a doc comment saying so.
-/

namespace ResourceMonitor

/-- The binary result every hook callback returns
(MAKEFLOW_HOOK_SUCCESS / MAKEFLOW_HOOK_FAILURE). -/
inductive HookResult
  | success
  | failure
deriving DecidableEq

/-- Modelled from the spec: `string_replace_percents` (cctools `stringtools.c`,
not under `src/`) replaces each occurrence of the `%%` marker in the template
by the replacement string; all other characters are kept. This is the list
level worker. -/
def replacePercentsAux (r : List Char) : List Char → List Char
  | [] => []
  | [c] => [c]
  | c :: d :: rest =>
    if c = '%' ∧ d = '%' then r ++ replacePercentsAux r rest
    else c :: replacePercentsAux r (d :: rest)

/-- Modelled from the spec: `string_replace_percents` on strings. -/
def string_replace_percents (s r : String) : String :=
  String.mk (replacePercentsAux r.data s.data)

/-- Modelled from the spec: `path_basename` (cctools `path.c`, not under
`src/`) returns the final path component, the substring after the last
slash. -/
def path_basename (s : String) : String :=
  String.mk ((s.data.reverse.takeWhile (fun c => c != '/')).reverse)

/-- The process-wide monitor configuration after a successful `create`
(struct makeflow_monitor with every field populated). Boolean-as-int fields
keep their C representation. -/
structure Monitor where
  enable_debug : Int
  enable_time_series : Int
  enable_list_files : Int
  interval : Int
  log_dir : String
  log_format : String
  log_pfx : String
  exe : String
  exe_remote : String
deriving DecidableEq

/-- The option lookups `create` performs on its jx argument object.
A field is `none` when the key is absent or its value has the wrong type,
matching `jx_lookup_string` / `jx_lookup_integer` returning NULL / 0. -/
structure JxArgs where
  log_dir : Option String
  log_format : Option String
  interval : Option Int
  enable_time_series : Option Int
  enable_list_files : Option Int
deriving DecidableEq

/-- `jx_lookup_integer`: 0 when the key is absent. -/
def jx_int (o : Option Int) : Int := o.getD 0

def DEFAULT_MONITOR_LOG_FORMAT : String := "resource-rule-%%"

/-- The `create` callback. `locate` is the result of
`resource_monitor_locate(NULL)` (the host path search). Returns the
populated singleton on success, `none` on MAKEFLOW_HOOK_FAILURE.
Note the C guard `if(jx_lookup_integer(args, "resource_monitor_interval"))`:
a configured value of 0 is indistinguishable from an absent key, so the
default interval 1 is kept in that case. -/
def create (args : JxArgs) (locate : Option String) : Option Monitor :=
  match args.log_dir with
  | none => none
  | some log_dir =>
    let log_format := args.log_format.getD DEFAULT_MONITOR_LOG_FORMAT
    let log_pfx := log_dir ++ "/" ++ log_format
    let interval : Int :=
      if jx_int args.interval ≠ 0 then jx_int args.interval else 1
    if interval < 1 then none
    else
      match locate with
      | none => none
      | some exe =>
        some ⟨0, jx_int args.enable_time_series, jx_int args.enable_list_files,
          interval, log_dir, log_format, log_pfx, exe, "cctools-monitor"⟩

/-- `set_log_prefix`: the per-node log prefix, the configured prefix with
`%%` replaced by the decimal node id. -/
def set_log_pfx (m : Monitor) (nodeid : Int) : String :=
  string_replace_percents m.log_pfx (toString nodeid)

/-- The dag_file type tags used by the hook
(DAG_FILE_TYPE_GLOBAL / _INTERMEDIATE / _TEMP). -/
inductive DagFileType
  | global
  | intermediate
  | temp
deriving DecidableEq

/-- The node state the hook may emit (DAG_NODE_STATE_WAITING). -/
inductive NodeState
  | waiting
deriving DecidableEq

/-- Observable effects of `node_submit`: the input and output files declared
on the task (filename, remote name, type), the executable token and the
output prefix handed to `resource_monitor_write_command`, and the hook
result. -/
structure SubmitEffects where
  inputs : List (String × Option String × DagFileType)
  outputs : List (String × DagFileType)
  executable : String
  output_pfx : String
  result : HookResult
deriving DecidableEq

/-- The `node_submit` callback. `supports` is the queue capability probe
`batch_queue_supports_feature`; `wrapperFile` is the filename returned by
`batch_wrapper_write`, `none` when wrapper generation failed. -/
def node_submit (m : Monitor) (nodeid : Int) (supports : String → Bool)
    (wrapperFile : Option String) : SubmitEffects :=
  let executable : String :=
    if supports "remote_rename" = true then "./" ++ m.exe_remote else m.exe
  let log_pfx := set_log_pfx m nodeid
  let outputs : List (String × DagFileType) :=
    [(log_pfx ++ ".summary", DagFileType.intermediate)]
    ++ (if m.enable_time_series ≠ 0 then
          [(log_pfx ++ ".series", DagFileType.intermediate)] else [])
    ++ (if m.enable_list_files ≠ 0 then
          [(log_pfx ++ ".files", DagFileType.intermediate)] else [])
  let output_pfx : String :=
    if supports "output_directories" = true then log_pfx
    else path_basename log_pfx
  let inputs : List (String × Option String × DagFileType) :=
    [(m.exe, some m.exe_remote, DagFileType.global)]
    ++ (match wrapperFile with
        | some w => [(w, some w, DagFileType.temp)]
        | none => [])
  ⟨inputs, outputs, executable, output_pfx,
    match wrapperFile with
    | some _ => HookResult.success
    | none => HookResult.failure⟩

/-- Sequential rename attempts: each pair is (old path, new path); the C
code issues the renames in order and returns MAKEFLOW_HOOK_FAILURE at the
first failing one, skipping the rest. `renameOk` is the filesystem oracle
for `rename` succeeding. Returns the hook result and the list of rename
calls actually performed. -/
def attemptRenames (renameOk : String → String → Bool) :
    List (String × String) → HookResult × List (String × String)
  | [] => (HookResult.success, [])
  | p :: ps =>
    if renameOk p.1 p.2 = true then
      let r := attemptRenames renameOk ps
      (r.1, p :: r.2)
    else
      (HookResult.failure, [p])

/-- The full list of renames `makeflow_monitor_move_output_if_needed` issues
when relocation runs to completion: `.summary` always, `.series` iff time
series are enabled, `.files` iff file lists are enabled, each from the
basename prefix to the full prefix. -/
def movePending (m : Monitor) (nodeid : Int) : List (String × String) :=
  [(path_basename (set_log_pfx m nodeid) ++ ".summary",
    set_log_pfx m nodeid ++ ".summary")]
  ++ (if m.enable_time_series ≠ 0 then
        [(path_basename (set_log_pfx m nodeid) ++ ".series",
          set_log_pfx m nodeid ++ ".series")] else [])
  ++ (if m.enable_list_files ≠ 0 then
        [(path_basename (set_log_pfx m nodeid) ++ ".files",
          set_log_pfx m nodeid ++ ".files")] else [])

/-- `makeflow_monitor_move_output_if_needed`: no-op when the queue supports
output_directories or when the basename prefix equals the full prefix;
otherwise the renames of `movePending` are attempted in order, aborting at
the first failure. Returns the hook result and the rename calls
performed. -/
def move_output_if_needed (m : Monitor) (nodeid : Int)
    (supports : String → Bool) (renameOk : String → String → Bool) :
    HookResult × List (String × String) :=
  if supports "output_directories" = true then (HookResult.success, [])
  else
    let log_pfx := set_log_pfx m nodeid
    let output_pfx := path_basename log_pfx
    if log_pfx = output_pfx then (HookResult.success, [])
    else attemptRenames renameOk (movePending m nodeid)

/-- The parsed rmsummary record (owned by the runtime; its contents are
irrelevant to the hook logic verified here, so it is reduced to a tag). -/
structure RMSummary where
  tag : Nat
deriving DecidableEq

/-- Observable effects of `node_end`: the output prefix it computed, the
summary filename it read, the measurement left attached to the node, whether
the measurement was folded into the category aggregate, the hook result and
the renames performed by relocation. -/
structure NodeEndEffects where
  output_pfx : String
  summary_name : String
  resources_measured : Option RMSummary
  accumulated : Bool
  result : HookResult
  renames : List (String × String)
deriving DecidableEq

/-- The `node_end` callback. `prev` is the measurement already attached to
the node on entry (it is deleted unconditionally before parsing); `parse` is
the oracle for `rmsummary_parse_file_single` and `renameOk` the filesystem
oracle for `rename`. -/
def node_end (m : Monitor) (nodeid : Int) (supports : String → Bool)
    (_prev : Option RMSummary) (parse : String → Option RMSummary)
    (renameOk : String → String → Bool) : NodeEndEffects :=
  let log_pfx := set_log_pfx m nodeid
  let output_pfx : String :=
    if supports "output_directories" = true then log_pfx
    else path_basename log_pfx
  let summary_name := output_pfx ++ ".summary"
  match parse summary_name with
  | none => ⟨output_pfx, summary_name, none, false, HookResult.success, []⟩
  | some r =>
    let mv := move_output_if_needed m nodeid supports renameOk
    ⟨output_pfx, summary_name, some r, true, mv.1, mv.2⟩

/-- Modelled from the spec: the category model allocation labels
(`category_allocation_t`, runtime-owned, not under `src/`) — a ladder of
labels plus the error sentinel meaning the ladder is exhausted. -/
inductive CategoryAllocation
  | label (n : Nat)
  | error
deriving DecidableEq

/-- Modelled from the spec: the sentinel exit code RM_OVERFLOW
(`rmonitor.h`, not under `src/`); the exact numeric value is immaterial, only
the comparison against it matters. -/
def RM_OVERFLOW : Int := 147

/-- The batch task exit classification `node_fail` inspects. -/
structure TaskInfo where
  disk_allocation_exhausted : Int
  exit_code : Int
deriving DecidableEq

/-- Observable effects of `node_fail`: the hook result, the final
resource_request on the node and the state changes emitted. -/
structure NodeFailEffects where
  result : HookResult
  resource_request : CategoryAllocation
  stateChanges : List NodeState
deriving DecidableEq

/-- The `node_fail` callback. `req` is the resource_request on the node at
entry; `next` is the result of `category_next_label` (runtime oracle). -/
def node_fail (info : TaskInfo) (req : CategoryAllocation)
    (next : CategoryAllocation) : NodeFailEffects :=
  if info.disk_allocation_exhausted ≠ 0 ∨ info.exit_code = RM_OVERFLOW then
    if next ≠ CategoryAllocation.error then
      ⟨HookResult.failure, next, [NodeState.waiting]⟩
    else
      ⟨HookResult.failure, req, []⟩
  else
    ⟨HookResult.success, req, []⟩

/-- Outcome of the initial `mkdir(log_dir, 0777)` in `dag_start`. -/
inductive MkdirOutcome
  | ok
  | enoent
  | eexist
  | otherErr
deriving DecidableEq

/-- Observable effects of `dag_start`: the hook result, whether the
recursive `create_dir` fallback was attempted, whether a setup error was
logged, whether the log directory was registered in the DAG file table and
whether the EXISTS state change was emitted for it. -/
structure DagStartEffects where
  result : HookResult
  recursiveAttempted : Bool
  errorLogged : Bool
  logDirRegistered : Bool
  stateChangeEmitted : Bool
deriving DecidableEq

/-- The `dag_start` callback. `mk` is the outcome of the single-level
`mkdir`; `createDirOk` says whether the recursive `create_dir` fallback
succeeds. The C int juggling is kept: `result` is 0 on mkdir success, the
negation of `create_dir` after an ENOENT fallback, and -1 otherwise;
registration and the state change happen iff `result == 0`. -/
def dag_start (mk : MkdirOutcome) (createDirOk : Bool) : DagStartEffects :=
  let result0 : Int := match mk with | MkdirOutcome.ok => 0 | _ => -1
  let result1 : Int :=
    match mk with
    | MkdirOutcome.ok => result0
    | MkdirOutcome.enoent => if createDirOk then 0 else 1
    | MkdirOutcome.eexist => result0
    | MkdirOutcome.otherErr => result0
  let recursive : Bool := match mk with
    | MkdirOutcome.enoent => true
    | _ => false
  let logged : Bool := match mk with
    | MkdirOutcome.otherErr => true
    | _ => false
  let registered : Bool := decide (result1 = 0)
  ⟨HookResult.success, recursive, logged, registered, registered⟩

/-- A configuration object whose interval option is present with value 0. -/
def argsZero : JxArgs := ⟨some "logs", none, some 0, none, none⟩

/-- An ordinary configuration object: log dir, explicit format, interval 2. -/
def argsStd : JxArgs := ⟨some "logs", some "r-%%", some 2, none, none⟩

/-- The monitor `create argsStd` produces (time series and file lists off). -/
def mStd : Monitor :=
  ⟨0, 0, 0, 2, "logs", "r-%%", "logs/r-%%",
    "/opt/cctools/bin/resource_monitor", "cctools-monitor"⟩

/-- A monitor with both time series and file lists enabled. -/
def mBoth : Monitor :=
  ⟨0, 1, 1, 1, "logs", "r-%%", "logs/r-%%",
    "/opt/cctools/bin/resource_monitor", "cctools-monitor"⟩

/-- A monitor with time series enabled and file lists disabled. -/
def mSeries : Monitor :=
  ⟨0, 1, 0, 1, "logs", "r-%%", "logs/r-%%",
    "/opt/cctools/bin/resource_monitor", "cctools-monitor"⟩

theorem replacePercentsAux_cons (r : List Char) (c : Char) (l : List Char)
    (hc : c ≠ '%') :
    replacePercentsAux r (c :: l) = c :: replacePercentsAux r l := by
  cases l with
  | nil => simp [replacePercentsAux]
  | cons d rest => simp [replacePercentsAux, hc]

theorem replacePercentsAux_no_pct (r : List Char) (l : List Char)
    (h : ∀ c ∈ l, c ≠ '%') : replacePercentsAux r l = l := by
  induction l with
  | nil => rfl
  | cons c rest ih =>
    rw [replacePercentsAux_cons r c rest (h c (by simp))]
    rw [ih (fun x hx => h x (by simp [hx]))]

theorem replacePercentsAux_split (r a b : List Char)
    (ha : ∀ c ∈ a, c ≠ '%') (hb : ∀ c ∈ b, c ≠ '%') :
    replacePercentsAux r (a ++ '%' :: '%' :: b) = a ++ r ++ b := by
  induction a with
  | nil =>
    show replacePercentsAux r ('%' :: '%' :: b) = [] ++ r ++ b
    simp [replacePercentsAux, replacePercentsAux_no_pct r b hb]
  | cons c a2 ih =>
    have hc : c ≠ '%' := ha c (by simp)
    rw [List.cons_append, replacePercentsAux_cons r c _ hc,
      ih (fun x hx => ha x (by simp [hx]))]
    simp

theorem attemptRenames_all_ok (f : String → String → Bool)
    (l : List (String × String)) (h : ∀ p ∈ l, f p.1 p.2 = true) :
    attemptRenames f l = (HookResult.success, l) := by
  induction l with
  | nil => rfl
  | cons p ps ih =>
    simp [attemptRenames, h p (by simp),
      ih (fun q hq => h q (by simp [hq]))]

theorem attemptRenames_success_eq (f : String → String → Bool)
    (l : List (String × String))
    (h : (attemptRenames f l).1 = HookResult.success) :
    (attemptRenames f l).2 = l := by
  induction l with
  | nil => rfl
  | cons p ps ih =>
    by_cases hp : f p.1 p.2 = true
    · simp [attemptRenames, hp] at h ⊢
      exact ih h
    · simp [attemptRenames, hp] at h

theorem attemptRenames_failure_iff (f : String → String → Bool)
    (l : List (String × String)) :
    (attemptRenames f l).1 = HookResult.failure ↔
      ∃ p ∈ (attemptRenames f l).2, f p.1 p.2 = false := by
  induction l with
  | nil => simp [attemptRenames]
  | cons p ps ih =>
    by_cases hp : f p.1 p.2 = true
    · simpa [attemptRenames, hp] using ih
    · simp [attemptRenames, hp]

theorem create_exe_remote (args : JxArgs) (locate : Option String)
    (m : Monitor) (h : create args locate = some m) :
    m.exe_remote = "cctools-monitor" := by
  cases hld : args.log_dir with
  | none => simp [create, hld] at h
  | some ld =>
    cases hloc : locate with
    | none => simp [create, hld, hloc] at h
    | some e =>
      simp [create, hld, hloc] at h
      rw [← h.2]

/-- C1, counterexample to the claim as stated: with the
resource_monitor_interval option present and equal to 0 (which is below 1),
a configuration with a log directory and a locatable sidecar binary still
makes `create` succeed, because the C guard treats a 0 lookup result as an
absent option and keeps the default interval of 1. -/
theorem create_interval_zero_succeeds :
    argsZero.interval = some 0 ∧ jx_int argsZero.interval < 1
    ∧ create argsZero (some "/opt/cctools/bin/resource_monitor") ≠ none := by
  decide

/-- C1 (amended): `create` fails if and only if the log-dir option is
missing, or the interval option carries a nonzero value below 1 (a
configured value of 0 is indistinguishable from an absent option, so the
default of 1 is used and `create` succeeds), or the sidecar binary cannot
be located. -/
theorem create_none_iff (args : JxArgs) (locate : Option String) :
    create args locate = none ↔
      args.log_dir = none
      ∨ (jx_int args.interval ≠ 0 ∧ jx_int args.interval < 1)
      ∨ locate = none := by
  cases hld : args.log_dir with
  | none => simp [create, hld]
  | some ld =>
    cases hloc : locate with
    | none => simp [create, hld, hloc]
    | some e =>
      by_cases hi : jx_int args.interval ≠ 0
      · by_cases hlt : jx_int args.interval < 1
        · simp [create, hld, hloc, hi, hlt]
        · simp [create, hld, hloc, hi, hlt]
      · simp [create, hld, hloc, hi]

/-- C2: on a disk-allocation-exhausted or RM_OVERFLOW failure, the resource
request is updated and a WAITING state change is emitted iff the next
category label is not the error sentinel, and the hook returns failure in
both cases; on any other failure it returns success and emits no state
change. -/
theorem node_fail_escalation (info : TaskInfo)
    (req next : CategoryAllocation) :
    ((info.disk_allocation_exhausted ≠ 0 ∨ info.exit_code = RM_OVERFLOW) →
      (node_fail info req next).result = HookResult.failure
      ∧ (((node_fail info req next).resource_request = next
          ∧ (node_fail info req next).stateChanges = [NodeState.waiting])
         ↔ next ≠ CategoryAllocation.error))
    ∧ (¬(info.disk_allocation_exhausted ≠ 0 ∨ info.exit_code = RM_OVERFLOW) →
      (node_fail info req next).result = HookResult.success
      ∧ (node_fail info req next).stateChanges = []) := by
  by_cases h : info.disk_allocation_exhausted ≠ 0 ∨ info.exit_code = RM_OVERFLOW
  · by_cases hn : next = CategoryAllocation.error
    · simp [node_fail, h, hn]
    · simp [node_fail, h, hn]
  · simp [node_fail, h]

/-- C2 witness: a disk-exhausted task with an available next label yields
failure and a WAITING state change. -/
theorem node_fail_escalation_witness :
    (node_fail ⟨1, 0⟩ (CategoryAllocation.label 0)
        (CategoryAllocation.label 1)).result = HookResult.failure
    ∧ (node_fail ⟨1, 0⟩ (CategoryAllocation.label 0)
        (CategoryAllocation.label 1)).stateChanges = [NodeState.waiting] := by
  have h := node_fail_escalation ⟨1, 0⟩ (CategoryAllocation.label 0)
    (CategoryAllocation.label 1)
  have h1 := h.1 (by decide)
  exact ⟨h1.1, (h1.2.mpr (by decide)).2⟩

/-- C3, counterexample to the claim as stated: with time series enabled and
file lists disabled, a failing first rename makes relocation perform exactly
one rename call, not 1 + 1 + 0 = 2, because the C code returns at the first
failing rename. -/
theorem move_output_early_abort_count :
    mSeries.enable_time_series ≠ 0 ∧ mSeries.enable_list_files = 0
    ∧ ((fun _ : String => false) "output_directories" = false)
    ∧ path_basename (set_log_pfx mSeries 1) ≠ set_log_pfx mSeries 1
    ∧ (move_output_if_needed mSeries 1 (fun _ => false)
        (fun _ _ => false)).2.length = 1
    ∧ (move_output_if_needed mSeries 1 (fun _ => false)
        (fun _ _ => false)).1 = HookResult.failure := by
  decide

/-- C3 (amended): relocation performs zero renames when the queue supports
output_directories, and zero when the basename of the per-node prefix
equals the prefix; otherwise it attempts the renames of `movePending` in
order (summary unconditionally, series iff time series, files iff file
lists, each from the basename prefix to the full prefix), stopping at the
first failure, which makes the hook return failure; when the hook succeeds
it has performed exactly 1 + time_series + list_files rename calls. -/
theorem move_output_spec (m : Monitor) (k : Int) (supports : String → Bool)
    (renameOk : String → String → Bool) :
    (supports "output_directories" = true →
      move_output_if_needed m k supports renameOk = (HookResult.success, []))
    ∧ (supports "output_directories" = false →
        path_basename (set_log_pfx m k) = set_log_pfx m k →
        move_output_if_needed m k supports renameOk = (HookResult.success, []))
    ∧ (supports "output_directories" = false →
        path_basename (set_log_pfx m k) ≠ set_log_pfx m k →
        ((move_output_if_needed m k supports renameOk).1 = HookResult.success →
          (move_output_if_needed m k supports renameOk).2 = movePending m k)
        ∧ ((move_output_if_needed m k supports renameOk).1 = HookResult.failure
            ↔ ∃ p ∈ (move_output_if_needed m k supports renameOk).2,
                renameOk p.1 p.2 = false)
        ∧ (movePending m k).length
            = 1 + (if m.enable_time_series ≠ 0 then 1 else 0)
              + (if m.enable_list_files ≠ 0 then 1 else 0)) := by
  refine ⟨?_, ?_, ?_⟩
  · intro hs
    simp [move_output_if_needed, hs]
  · intro hs heq
    simp only [move_output_if_needed, hs, Bool.false_eq_true, if_false]
    rw [if_pos heq.symm]
  · intro hs hne
    have hmain : move_output_if_needed m k supports renameOk
        = attemptRenames renameOk (movePending m k) := by
      simp only [move_output_if_needed, hs, Bool.false_eq_true, if_false]
      rw [if_neg (fun hc => hne hc.symm)]
    refine ⟨?_, ?_, ?_⟩
    · intro hsucc
      rw [hmain] at hsucc ⊢
      exact attemptRenames_success_eq renameOk (movePending m k) hsucc
    · rw [hmain]
      exact attemptRenames_failure_iff renameOk (movePending m k)
    · by_cases h1 : m.enable_time_series ≠ 0 <;>
        by_cases h2 : m.enable_list_files ≠ 0 <;>
          simp [movePending, h1, h2]

/-- C3 witness: with both artifact kinds enabled, a queue without
output_directories and all renames succeeding, the performed renames are
exactly the pending list. -/
theorem move_output_spec_witness :
    (move_output_if_needed mBoth 2 (fun _ => false) (fun _ _ => true)).2
      = movePending mBoth 2 := by
  have h := (move_output_spec mBoth 2 (fun _ => false)
    (fun _ _ => true)).2.2 rfl (by decide)
  exact h.1 (by decide)

/-- C4: when the summary file is absent or unparsable at node_end, the hook
returns success, performs no rename, folds nothing into the category
aggregate, and the node carries no measurement. -/
theorem node_end_missing_summary (m : Monitor) (k : Int)
    (supports : String → Bool) (prev : Option RMSummary)
    (parse : String → Option RMSummary) (renameOk : String → String → Bool)
    (h : parse ((if supports "output_directories" = true then set_log_pfx m k
        else path_basename (set_log_pfx m k)) ++ ".summary") = none) :
    (node_end m k supports prev parse renameOk).result = HookResult.success
    ∧ (node_end m k supports prev parse renameOk).renames = []
    ∧ (node_end m k supports prev parse renameOk).accumulated = false
    ∧ (node_end m k supports prev parse renameOk).resources_measured
        = none := by
  simp [node_end, h]

/-- C4 witness: a parse oracle that always fails. -/
theorem node_end_missing_summary_witness :
    (node_end mBoth 2 (fun _ => false) none (fun _ => none)
        (fun _ _ => true)).result = HookResult.success
    ∧ (node_end mBoth 2 (fun _ => false) none (fun _ => none)
        (fun _ _ => true)).renames = []
    ∧ (node_end mBoth 2 (fun _ => false) none (fun _ => none)
        (fun _ _ => true)).accumulated = false
    ∧ (node_end mBoth 2 (fun _ => false) none (fun _ => none)
        (fun _ _ => true)).resources_measured = none :=
  node_end_missing_summary mBoth 2 (fun _ => false) none (fun _ => none)
    (fun _ _ => true) rfl

/-- C5: with time series and file lists disabled the outputs declared on a
submitted task are exactly the summary log; with both enabled, exactly the
summary, series and files logs, all of type intermediate. -/
theorem node_submit_outputs (m : Monitor) (k : Int)
    (supports : String → Bool) (w : Option String) :
    (m.enable_time_series = 0 → m.enable_list_files = 0 →
      (node_submit m k supports w).outputs
        = [(set_log_pfx m k ++ ".summary", DagFileType.intermediate)])
    ∧ (m.enable_time_series ≠ 0 → m.enable_list_files ≠ 0 →
      (node_submit m k supports w).outputs
        = [(set_log_pfx m k ++ ".summary", DagFileType.intermediate),
           (set_log_pfx m k ++ ".series", DagFileType.intermediate),
           (set_log_pfx m k ++ ".files", DagFileType.intermediate)]) := by
  constructor
  · intro h1 h2
    simp [node_submit, h1, h2]
  · intro h1 h2
    simp [node_submit, h1, h2]

/-- C5 witness: both artifact kinds enabled. -/
theorem node_submit_outputs_witness :
    (node_submit mBoth 2 (fun _ => false) none).outputs
      = [(set_log_pfx mBoth 2 ++ ".summary", DagFileType.intermediate),
         (set_log_pfx mBoth 2 ++ ".series", DagFileType.intermediate),
         (set_log_pfx mBoth 2 ++ ".files", DagFileType.intermediate)] :=
  (node_submit_outputs mBoth 2 (fun _ => false) none).2 (by decide)
    (by decide)

/-- C6: the output prefix handed to the sidecar command writer equals the
per-node log prefix when the queue supports output_directories and its
basename otherwise, and node_end computes the same output prefix the same
way. -/
theorem output_pfx_choice (m : Monitor) (k : Int) (supports : String → Bool)
    (w : Option String) (prev : Option RMSummary)
    (parse : String → Option RMSummary)
    (renameOk : String → String → Bool) :
    (node_submit m k supports w).output_pfx
      = (if supports "output_directories" = true then set_log_pfx m k
         else path_basename (set_log_pfx m k))
    ∧ (node_end m k supports prev parse renameOk).output_pfx
      = (node_submit m k supports w).output_pfx := by
  refine ⟨rfl, ?_⟩
  cases hp : parse ((if supports "output_directories" = true
      then set_log_pfx m k
      else path_basename (set_log_pfx m k)) ++ ".summary") <;>
    simp [node_end, node_submit, hp]

/-- C7: when the queue advertises remote_rename the executable token passed
to the sidecar command writer is ./cctools-monitor, otherwise it is the
local exe path, for any monitor produced by a successful `create`. -/
theorem node_submit_executable (args : JxArgs) (locate : Option String)
    (m : Monitor) (h : create args locate = some m) (k : Int)
    (supports : String → Bool) (w : Option String) :
    (node_submit m k supports w).executable
      = if supports "remote_rename" = true then "./cctools-monitor"
        else m.exe := by
  have hr := create_exe_remote args locate m h
  have hexec : (node_submit m k supports w).executable
      = if supports "remote_rename" = true then "./" ++ m.exe_remote
        else m.exe := rfl
  have hstr : ("./" ++ "cctools-monitor" : String) = "./cctools-monitor" := by
    decide
  rw [hexec, hr, hstr]

/-- C7 witness: a remote_rename queue with a monitor built by `create`. -/
theorem node_submit_executable_witness :
    (node_submit mStd 3 (fun _ => true) (some "wrap.sh")).executable
      = "./cctools-monitor" := by
  have h := node_submit_executable argsStd
    (some "/opt/cctools/bin/resource_monitor") mStd (by decide) 3
    (fun _ => true) (some "wrap.sh")
  simpa using h

/-- C8: the per-node log prefix is the configured prefix with the `%%`
marker replaced by the decimal node id: whenever the configured prefix
splits as a ++ "%%" ++ b with no other percent character, the result is
a ++ str(id) ++ b, one substitution where the marker was and byte-identical
elsewhere (and, being a Lean function, repeated calls agree). -/
theorem set_log_pfx_substitution (m : Monitor) (k : Int) (a b : List Char)
    (hsplit : m.log_pfx.data = a ++ '%' :: '%' :: b)
    (ha : ∀ c ∈ a, c ≠ '%') (hb : ∀ c ∈ b, c ≠ '%') :
    (set_log_pfx m k).data = a ++ (toString k).data ++ b := by
  show (replacePercentsAux (toString k).data m.log_pfx.data) = _
  rw [hsplit]
  exact replacePercentsAux_split (toString k).data a b ha hb

/-- C8 witness: prefix logs/r-%% at node id 7. -/
theorem set_log_pfx_substitution_witness :
    (set_log_pfx mStd 7).data
      = "logs/r-".data ++ (toString (7 : Int)).data ++ [] :=
  set_log_pfx_substitution mStd 7 "logs/r-".data [] (by decide) (by decide)
    (by decide)

/-- C9: dag_start always returns success; the recursive fallback is
attempted exactly on ENOENT; an error is logged exactly on filesystem
errors other than ENOENT and EEXIST; the log directory is registered and
its EXISTS state change emitted exactly when the mkdir or the recursive
fallback succeeded. -/
theorem dag_start_spec (mk : MkdirOutcome) (createDirOk : Bool) :
    (dag_start mk createDirOk).result = HookResult.success
    ∧ ((dag_start mk createDirOk).recursiveAttempted = true
        ↔ mk = MkdirOutcome.enoent)
    ∧ ((dag_start mk createDirOk).errorLogged = true
        ↔ mk = MkdirOutcome.otherErr)
    ∧ ((dag_start mk createDirOk).logDirRegistered = true
        ↔ (mk = MkdirOutcome.ok
           ∨ (mk = MkdirOutcome.enoent ∧ createDirOk = true)))
    ∧ (dag_start mk createDirOk).stateChangeEmitted
        = (dag_start mk createDirOk).logDirRegistered := by
  cases mk <;> cases createDirOk <;> decide

/-- C10: node_end discards the previously attached measurement before
parsing: entering with a measurement attached and an absent or unparsable
summary leaves the node with no measurement while the hook still returns
success. -/
theorem node_end_discards_prev (m : Monitor) (k : Int)
    (supports : String → Bool) (p : RMSummary)
    (parse : String → Option RMSummary) (renameOk : String → String → Bool)
    (h : parse ((if supports "output_directories" = true then set_log_pfx m k
        else path_basename (set_log_pfx m k)) ++ ".summary") = none) :
    (node_end m k supports (some p) parse renameOk).result
        = HookResult.success
    ∧ (node_end m k supports (some p) parse renameOk).resources_measured
        = none := by
  simp [node_end, h]

/-- C10 witness: a node entering node_end with a measurement attached and a
parse oracle that fails. -/
theorem node_end_discards_prev_witness :
    (node_end mBoth 2 (fun _ => false) (some ⟨5⟩) (fun _ => none)
        (fun _ _ => true)).result = HookResult.success
    ∧ (node_end mBoth 2 (fun _ => false) (some ⟨5⟩) (fun _ => none)
        (fun _ _ => true)).resources_measured = none :=
  node_end_discards_prev mBoth 2 (fun _ => false) ⟨5⟩ (fun _ => none)
    (fun _ _ => true) rfl

end ResourceMonitor
